import Mathlib

/-!
Verification of the loyalty-program repository (rules engine + wallet ledger).

Shallow embedding conventions:
* Python floats / SQL Float columns are modelled as exact rationals (ℚ); the
  claims under study are about exact accounting identities, which is how the
  spec states them.
* Timestamps (`datetime.utcnow()`) are modelled as an explicit rational `now`
  parameter, in seconds (`timedelta(days=d)` = `d * 86400` seconds,
  `timedelta(hours=h)` = `h * 3600` seconds).
* The SQLAlchemy session is modelled by explicit state records; `commit` has no
  observable effect beyond the mutations already performed, so it is dropped.
* JSON scalar values occurring in rule conditions and player state are
  modelled by `Loyalty.Prim` (numbers and strings).
-/

namespace Loyalty

/-- JSON scalar: a number or a string (models the values appearing in rule
conditions and in the player-state mapping of `rules_engine.py`). -/
inductive Prim where
  | num (q : ℚ)
  | str (s : String)
deriving DecidableEq, Repr

/-- A condition value in a rule's `conditions` JSON object
(`rules_engine.py`, `evaluate_condition`): a scalar, a list of scalars, or a
nested mapping carrying optional `min` / `max` / `equals` bounds. -/
inductive CondV where
  | prim (p : Prim)
  | list (l : List Prim)
  | obj (mn mx eqv : Option Prim)
deriving DecidableEq, Repr

/-- The player state: a mapping from field names to scalar values
(`player_state` dict). -/
abbrev PlayerState := List (String × Prim)

/-- `player_state.get(key)`: first binding of `key` in the association list
(Python dicts have unique keys). -/
def sget : PlayerState → String → Option Prim
  | [], _ => none
  | (k, v) :: rest, key => if k = key then some v else sget rest key

/-- Is `pat` a leading segment of `s`? -/
def startsWithCh : List Char → List Char → Bool
  | [], _ => true
  | _ :: _, [] => false
  | p :: ps, c :: cs => p = c && startsWithCh ps cs

/-- Python `s.endswith(suf)`. -/
def strEndsWith (s suf : String) : Bool :=
  startsWithCh suf.data.reverse s.data.reverse

/-- Python `s[:-n]` for `n > 0`: drop the last `n` characters (empty when
`n ≥ len(s)`). -/
def strDropRight (s : String) (n : Nat) : String :=
  String.mk (s.data.take (s.data.length - n))

/-- Python `<` on two scalars: numeric and string comparisons succeed,
a mixed comparison raises `TypeError` (modelled as `Except.error ()`). -/
def primLt : Prim → Prim → Except Unit Bool
  | .num a, .num b => .ok (decide (a < b))
  | .str a, .str b => .ok (decide (a < b))
  | _, _ => .error ()

/-- `RulesEngine.evaluate_condition` (`rules_engine.py` lines 21-78): each
key/value pair of the condition is a predicate and all must hold; a failing
predicate returns `False` for the whole condition (Python's early `return`).
A Python `TypeError` from a mixed-type comparison propagates as
`Except.error`. -/
def evaluateCondition : List (String × CondV) → PlayerState → Except Unit Bool
  | [], _ => .ok true
  | (key, value) :: rest, state =>
    match value with
    | .obj mn mx eqv =>
      -- nested conditions, e.g. ⟨"max": 7, "min": 1⟩
      match sget state key with
      | none => .ok false
      | some pv =>
        match (match mn with | none => Except.ok false | some m => primLt pv m) with
        | .error e => .error e
        | .ok true => .ok false
        | .ok false =>
          match (match mx with | none => Except.ok false | some m => primLt m pv) with
          | .error e => .error e
          | .ok true => .ok false
          | .ok false =>
            match eqv with
            | some m => if pv = m then evaluateCondition rest state else .ok false
            | none => evaluateCondition rest state
    | .list l =>
      -- list conditions, e.g. segment in ["LOSING", "BREAKEVEN"]
      match sget state key with
      | none => .ok false
      | some pv => if pv ∈ l then evaluateCondition rest state else .ok false
    | .prim p =>
      if strEndsWith key "_min" then
        -- extract base key, e.g. "net_loss_min" to "net_loss"
        match sget state (strDropRight key 4) with
        | none => .ok false
        | some pv =>
          match primLt pv p with
          | .error e => .error e
          | .ok true => .ok false
          | .ok false => evaluateCondition rest state
      else if strEndsWith key "_max" then
        match sget state (strDropRight key 4) with
        | none => .ok false
        | some pv =>
          match primLt p pv with
          | .error e => .error e
          | .ok true => .ok false
          | .ok false => evaluateCondition rest state
      else
        -- exact match
        match sget state key with
        | none => .ok false
        | some pv => if pv = p then evaluateCondition rest state else .ok false

/-! ### String machinery for `calculate_reward_amount`

`calculate_reward_amount` first tries `float(formula)`, then substitutes every
numeric player-state field name occurring in the formula text with the string
rendering of its value (Python `str.replace`, applied in dict-iteration
order), and finally evaluates the resulting text as an arithmetic expression
with `eval(expression, ⟨"__builtins__": ⟨⟩⟩, ⟨⟩)`, falling back to `0.0` on any
exception.  We model:

* `str.replace` by `replaceAllCh` (all non-overlapping occurrences, scanned
  left to right; the replacement text is not rescanned);
* the rendering `str(value)` of a numeric value by `ratStr` (integers render
  as decimal numerals, non-integral rationals as `num/den` — an exact stand-in
  for Python's float formatting; only its digit/sign/slash character alphabet
  matters for the claims below);
* `float(formula)` by `parseDecimal` (finite decimal numerals with optional
  sign, fraction part and exponent; the non-finite spellings `nan`/`inf` are
  outside this model);
* `eval` restricted to the arithmetic fragment the formulas use by
  `evalExpr` (numbers, `+ - * /`, unary sign, parentheses); an identifier
  surviving substitution raises `NameError`, malformed text raises
  `SyntaxError`, and `/ 0` raises `ZeroDivisionError` — all modelled as
  `Except.error`, which `calcRewardAmount` turns into `0`.
-/

/-- Python `s.replace(pat, rep)` on character lists: replace every
non-overlapping occurrence of `pat` left to right.  The `fuel` argument only
serves structural recursion; any `fuel ≥ s.length` gives Python's semantics
(an empty `pat` never occurs in the code's `player_state` keys; the scan then
finds it at every position, which the wallet never exercises). -/
def replaceAllChGo (pat rep : List Char) : Nat → List Char → List Char
  | _, [] => []
  | 0, s => s
  | fuel + 1, c :: cs =>
    if pat ≠ [] ∧ startsWithCh pat (c :: cs) = true then
      rep ++ replaceAllChGo pat rep fuel ((c :: cs).drop pat.length)
    else
      c :: replaceAllChGo pat rep fuel cs

/-- Python `s.replace(pat, rep)`. -/
def strReplace (s pat rep : String) : String :=
  String.mk (replaceAllChGo pat.data rep.data s.data.length s.data)

/-- Decimal digits of a positive number, most significant first; `fuel`
bounds the recursion (`fuel ≥ n` suffices). -/
def natDigitsAux : Nat → Nat → List Char
  | _, 0 => []
  | 0, _ => []
  | fuel + 1, n => natDigitsAux fuel (n / 10) ++ [Char.ofNat (48 + n % 10)]

/-- Decimal digits of `n`, most significant first. -/
def natDigitsCh (n : Nat) : List Char :=
  if n = 0 then ['0'] else natDigitsAux n n

/-- Decimal rendering of an integer. -/
def intStrCh (i : Int) : List Char :=
  if i < 0 then '-' :: natDigitsCh i.natAbs else natDigitsCh i.natAbs

/-- `str(value)` for a numeric value: decimal numeral for integers,
`num/den` for non-integral rationals (see module comment). -/
def ratStr (q : ℚ) : String :=
  if q.den = 1 then String.mk (intStrCh q.num)
  else String.mk (intStrCh q.num ++ '/' :: natDigitsCh q.den)

/-- The substitution loop of `calculate_reward_amount` (`rules_engine.py`
lines 128-131): for each `(key, value)` of `player_state`, in iteration
order, if the value is numeric, `expression = expression.replace(key,
str(value))`. -/
def substState (state : PlayerState) (formula : String) : String :=
  state.foldl
    (fun expression kv =>
      match kv.2 with
      | .num q => strReplace expression kv.1 (ratStr q)
      | .str _ => expression)
    formula

/-- Modelled from the spec: insert a binding into a list kept in decreasing
key-length order (stable: equal lengths keep their relative order). -/
def insertByLen (kv : String × Prim) : PlayerState → PlayerState
  | [] => [kv]
  | kv2 :: rest =>
    if kv2.1.length < kv.1.length then kv :: kv2 :: rest
    else kv2 :: insertByLen kv rest

/-- Modelled from the spec: stable sort of the player state by decreasing
field-name length. -/
def sortByLenDesc : PlayerState → PlayerState
  | [] => []
  | kv :: rest => insertByLen kv (sortByLenDesc rest)

/-- Modelled from the spec: "longest-name-first substitution" — the
substitution loop run over the state sorted by decreasing name length
(`spec.md` §4.1 `calculateRewardAmount`). -/
def substLongestFirst (state : PlayerState) (formula : String) : String :=
  substState (sortByLenDesc state) formula

/-- Numeric value of a digit string (most significant first). -/
def digitsVal (ds : List Char) : Nat :=
  ds.foldl (fun a c => 10 * a + (c.toNat - 48)) 0

/-- Exponent / trailing part of a Python float literal: optional sign and a
nonempty digit run, consuming the whole remainder. -/
def parseExpPart (m : ℚ) (s : List Char) : Option ℚ :=
  let (neg, s1) :=
    match s with
    | '+' :: r => (false, r)
    | '-' :: r => (true, r)
    | r => (false, r)
  let (ds, rest) := s1.span (·.isDigit)
  if ds = [] ∨ rest ≠ [] then none
  else if neg then some (m / 10 ^ digitsVal ds) else some (m * 10 ^ digitsVal ds)

/-- Unsigned part of a Python float literal: `digits [. digits] [exp]`,
`. digits [exp]`, consuming the whole remainder. -/
def parseUnsigned (s : List Char) : Option ℚ :=
  let (ip, rest) := s.span (·.isDigit)
  match rest with
  | [] => if ip = [] then none else some (digitsVal ip)
  | '.' :: rest2 =>
    let (fp, rest3) := rest2.span (·.isDigit)
    if ip = [] ∧ fp = [] then none
    else
      let m : ℚ := digitsVal ip + (digitsVal fp : ℚ) / 10 ^ fp.length
      match rest3 with
      | [] => some m
      | 'e' :: rest4 => parseExpPart m rest4
      | 'E' :: rest4 => parseExpPart m rest4
      | _ => none
  | 'e' :: rest2 => if ip = [] then none else parseExpPart (digitsVal ip) rest2
  | 'E' :: rest2 => if ip = [] then none else parseExpPart (digitsVal ip) rest2
  | _ => none

/-- Python `float(s)` on finite decimal numerals: strip surrounding spaces,
optional sign, then an unsigned literal (see module comment for the model
boundary). -/
def parseDecimal (s : String) : Option ℚ :=
  let t := ((s.data.dropWhile (· = ' ')).reverse.dropWhile (· = ' ')).reverse
  match t with
  | '+' :: r => parseUnsigned r
  | '-' :: r => (parseUnsigned r).map Neg.neg
  | r => parseUnsigned r

/-- Tokens of the arithmetic fragment of Python expressions that reward
formulas use. -/
inductive Tok where
  | num (q : ℚ)
  | ident (s : String)
  | plus
  | minus
  | star
  | slash
  | lparen
  | rparen
deriving DecidableEq, Repr

/-- Identifier start character (Python: letter or underscore). -/
def isIdentStart (c : Char) : Bool := c.isAlpha || c = '_'

/-- Identifier continuation character (Python: letter, digit or
underscore). -/
def isIdentCont (c : Char) : Bool := c.isAlphanum || c = '_'

/-- Number token: `digits [. digits]` or `. digits`, returning its rational
value and the rest of the input. -/
def lexNumber (s : List Char) : Option (ℚ × List Char) :=
  let (ip, rest) := s.span (·.isDigit)
  match rest with
  | '.' :: rest2 =>
    let (fp, rest3) := rest2.span (·.isDigit)
    if ip = [] ∧ fp = [] then none
    else some ((digitsVal ip + (digitsVal fp : ℚ) / 10 ^ fp.length), rest3)
  | _ => if ip = [] then none else some ((digitsVal ip : ℚ), rest)

/-- Does the input start with a digit? -/
def headIsDigit : List Char → Bool
  | [] => false
  | c :: _ => c.isDigit

/-- Tokenizer for the arithmetic fragment: `none` models a Python
`SyntaxError` (an unrecognised character).  `fuel ≥ s.length` gives the
intended semantics. -/
def tokenizeGo : Nat → List Char → Option (List Tok)
  | _, [] => some []
  | 0, _ => none
  | fuel + 1, c :: cs =>
    if c = ' ' then tokenizeGo fuel cs
    else if c.isDigit ∨ (c = '.' ∧ headIsDigit cs = true) then
      match lexNumber (c :: cs) with
      | some (q, rest) => (tokenizeGo fuel rest).map (Tok.num q :: ·)
      | none => none
    else if isIdentStart c then
      let (idcs, rest) := cs.span isIdentCont
      (tokenizeGo fuel rest).map (Tok.ident (String.mk (c :: idcs)) :: ·)
    else
      match c with
      | '+' => (tokenizeGo fuel cs).map (Tok.plus :: ·)
      | '-' => (tokenizeGo fuel cs).map (Tok.minus :: ·)
      | '*' => (tokenizeGo fuel cs).map (Tok.star :: ·)
      | '/' => (tokenizeGo fuel cs).map (Tok.slash :: ·)
      | '(' => (tokenizeGo fuel cs).map (Tok.lparen :: ·)
      | ')' => (tokenizeGo fuel cs).map (Tok.rparen :: ·)
      | _ => none

/-- Errors raised by evaluating a substituted formula (the exceptions the
`except` clause of `calculate_reward_amount` catches). -/
inductive EvalErr where
  | nameError (s : String)
  | syntaxError
  | zeroDivision
deriving DecidableEq, Repr

mutual

/-- Expression: left-associated chain of `+`/`-` over terms. -/
def pExpr : Nat → List Tok → Except EvalErr (ℚ × List Tok)
  | 0, _ => .error .syntaxError
  | f + 1, ts =>
    match pTerm f ts with
    | .error e => .error e
    | .ok (v, ts1) => pExprRest f v ts1

/-- Remaining `+`/`-` chain with accumulated value. -/
def pExprRest : Nat → ℚ → List Tok → Except EvalErr (ℚ × List Tok)
  | 0, _, _ => .error .syntaxError
  | f + 1, acc, ts =>
    match ts with
    | .plus :: rest =>
      match pTerm f rest with
      | .error e => .error e
      | .ok (v, ts1) => pExprRest f (acc + v) ts1
    | .minus :: rest =>
      match pTerm f rest with
      | .error e => .error e
      | .ok (v, ts1) => pExprRest f (acc - v) ts1
    | _ => .ok (acc, ts)

/-- Term: left-associated chain of `*`/`/` over factors; division by zero
raises `ZeroDivisionError`. -/
def pTerm : Nat → List Tok → Except EvalErr (ℚ × List Tok)
  | 0, _ => .error .syntaxError
  | f + 1, ts =>
    match pFactor f ts with
    | .error e => .error e
    | .ok (v, ts1) => pTermRest f v ts1

/-- Remaining `*`/`/` chain with accumulated value. -/
def pTermRest : Nat → ℚ → List Tok → Except EvalErr (ℚ × List Tok)
  | 0, _, _ => .error .syntaxError
  | f + 1, acc, ts =>
    match ts with
    | .star :: rest =>
      match pFactor f rest with
      | .error e => .error e
      | .ok (v, ts1) => pTermRest f (acc * v) ts1
    | .slash :: rest =>
      match pFactor f rest with
      | .error e => .error e
      | .ok (v, ts1) =>
        if v = 0 then .error .zeroDivision else pTermRest f (acc / v) ts1
    | _ => .ok (acc, ts)

/-- Factor: unary sign, number, parenthesised expression; a bare identifier
raises `NameError` (the `eval` environment has empty builtins and globals). -/
def pFactor : Nat → List Tok → Except EvalErr (ℚ × List Tok)
  | 0, _ => .error .syntaxError
  | f + 1, ts =>
    match ts with
    | .minus :: rest =>
      match pFactor f rest with
      | .error e => .error e
      | .ok (v, ts1) => .ok (-v, ts1)
    | .plus :: rest => pFactor f rest
    | .num q :: rest => .ok (q, rest)
    | .ident s :: _ => .error (.nameError s)
    | .lparen :: rest =>
      match pExpr f rest with
      | .error e => .error e
      | .ok (v, ts1) =>
        match ts1 with
        | .rparen :: ts2 => .ok (v, ts2)
        | _ => .error .syntaxError
    | _ => .error .syntaxError

end

/-- `eval(expression, ⟨"__builtins__": ⟨⟩⟩, ⟨⟩)` on the arithmetic fragment:
tokenize, parse and evaluate; any leftover input is a `SyntaxError`. -/
def evalExpr (s : String) : Except EvalErr ℚ :=
  match tokenizeGo s.data.length s.data with
  | none => .error .syntaxError
  | some ts =>
    match pExpr (2 * ts.length + 2) ts with
    | .error e => .error e
    | .ok (v, []) => .ok v
    | .ok (_, _ :: _) => .error .syntaxError

/-- The `reward_config` JSON object of a rule (`models.py` `RewardRule`):
optional keys read with `.get`, so each is an `Option`. -/
structure RewardConfig where
  type : Option String := none
  formula : Option String := none
  max_amount : Option ℚ := none
  wagering_requirement : Option ℚ := none
  expiry_hours : Option ℚ := none
  eligible_games : Option (List String) := none
  max_bet : Option ℚ := none
deriving DecidableEq, Repr

/-- `RewardRule` (`models.py`): the fields the rules engine reads. -/
structure RewardRule where
  rule_id : String
  name : String := ""
  priority : Int := 0
  is_active : Bool := true
  conditions : List (String × CondV) := []
  reward_config : RewardConfig := {}
deriving DecidableEq, Repr

/-- `RulesEngine.evaluate_rule` (`rules_engine.py` lines 80-95): inactive
rules never match; otherwise delegate to `evaluate_condition`. -/
def evaluateRule (rule : RewardRule) (state : PlayerState) : Except Unit Bool :=
  if rule.is_active = false then .ok false
  else evaluateCondition rule.conditions state

/-- `RulesEngine.apply_caps` (`rules_engine.py` lines 141-146):
`if max_amount and amount > max_amount: return max_amount`.  Python
truthiness of a number: `0` is falsy, everything else truthy. -/
def applyCaps (amount : ℚ) (reward_config : RewardConfig) : ℚ :=
  match reward_config.max_amount with
  | some m => if m ≠ 0 ∧ m < amount then m else amount
  | none => amount

/-- `RulesEngine.calculate_reward_amount` (`rules_engine.py` lines 97-139):
`formula = reward_config.get("formula", "0")`; if it parses as a number
return it; otherwise substitute the numeric player-state fields into the text
(in state-iteration order) and evaluate the result, returning `0.0` on any
evaluation failure. -/
def calcRewardAmount (rule : RewardRule) (player_state : PlayerState) : ℚ :=
  let formula := rule.reward_config.formula.getD "0"
  match parseDecimal formula with
  | some q => q
  | none =>
    match evalExpr (substState player_state formula) with
    | .ok v => v
    | .error _ => 0

/-- Modelled from the spec: `calculateRewardAmount` with the spec's
longest-name-first substitution in place of the code's iteration-order
substitution (`spec.md` §4.1); used to compare the two behaviours. -/
def calcRewardAmountLongestFirst (rule : RewardRule) (player_state : PlayerState) : ℚ :=
  let formula := rule.reward_config.formula.getD "0"
  match parseDecimal formula with
  | some q => q
  | none =>
    match evalExpr (substLongestFirst player_state formula) with
    | .ok v => v
    | .error _ => 0

/-! ### Wallet ledger (`wallet_manager.py`) -/

/-- `CurrencyType` (`models.py`). -/
inductive CurrencyType where
  | LOYALTY_POINTS
  | REWARD_POINTS
  | BONUS_BALANCE
  | TICKETS
  | CASH
deriving DecidableEq, Repr

/-- The enum's string value (`CurrencyType.value` in Python). -/
def CurrencyType.value : CurrencyType → String
  | .LOYALTY_POINTS => "LP"
  | .REWARD_POINTS => "RP"
  | .BONUS_BALANCE => "BONUS"
  | .TICKETS => "TICKETS"
  | .CASH => "CASH"

/-- `TransactionType` (`models.py`; the constructors the wallet code uses). -/
inductive TransactionType where
  | DEPOSIT
  | WITHDRAWAL
  | WAGER
  | WIN
  | REWARD
  | BONUS_ISSUED
  | BONUS_EXPIRED
  | LP_EARNED
  | LP_REDEEMED
  | LP_EXPIRED
deriving DecidableEq, Repr

/-- `RewardStatus` (`models.py`). -/
inductive RewardStatus where
  | PENDING
  | ACTIVE
  | COMPLETED
  | EXPIRED
  | CANCELLED
deriving DecidableEq, Repr

/-- `RewardType` (`models.py`). -/
inductive RewardType where
  | CASHBACK
  | BONUS_BALANCE
  | FREE_PLAY
  | LOYALTY_POINTS
  | REWARD_POINTS
  | TICKETS
  | VIP_PERKS
deriving DecidableEq, Repr

/-- `LoyaltyBalance` (`models.py`): one multi-currency wallet row; all
columns default to zero / NULL / empty, exactly the state
`get_or_create_balance` materialises for a new player. -/
structure LoyaltyBalance where
  lp_balance : ℚ := 0
  rp_balance : ℚ := 0
  bonus_balance : ℚ := 0
  tickets_balance : Int := 0
  bonus_wagering_required : ℚ := 0
  bonus_wagering_completed : ℚ := 0
  bonus_expiry : Option ℚ := none
  bonus_max_bet : Option ℚ := none
  bonus_eligible_games : List String := []
deriving DecidableEq, Repr

/-- `LoyaltyPointEntry` (`models.py`): one FIFO point lot. -/
structure LoyaltyPointEntry where
  id : Nat := 0
  player_id : String
  amount : ℚ
  remaining_amount : ℚ
  source_type : String := ""
  issued_at : ℚ := 0
  expires_at : Option ℚ := none
  is_expired : Bool := false
deriving DecidableEq, Repr

/-- `Transaction` (`models.py`): the audit columns the wallet writes. -/
structure Transaction where
  player_id : String
  transaction_type : TransactionType
  currency_type : CurrencyType
  amount : ℚ
  balance_before : ℚ
  balance_after : ℚ
  description : String := ""
  reference_id : Option String := none
deriving DecidableEq, Repr

/-- `RewardHistory` (`models.py`).  The `meta_data` JSON is modelled by its
three projections the wallet reads: `lp_expiry_days`, `max_bet` and
`eligible_games` (each `none` when the key is absent). -/
structure RewardHistory where
  id : Nat
  player_id : String
  rule_id : Option String := none
  reward_type : RewardType
  amount : ℚ
  currency_type : CurrencyType
  status : RewardStatus := .PENDING
  wagering_required : ℚ := 0
  wagering_completed : ℚ := 0
  expires_at : Option ℚ := none
  lp_expiry_days : Option ℚ := none
  max_bet : Option ℚ := none
  eligible_games : Option (List String) := none
deriving DecidableEq, Repr

/-- The persistent state the wallet manager touches.  `balances` is a total
map: `get_or_create_balance` makes a zeroed row exist for every player on
first touch, and a freshly created row equals `⟨⟩` (all defaults), so reading
an absent row and reading a fresh row coincide.  `entries` is kept in
`issued_at` ascending order (credits append with a non-decreasing clock),
which is the order the FIFO query returns. -/
structure WalletState where
  balances : String → LoyaltyBalance
  entries : List LoyaltyPointEntry := []
  rewards : List RewardHistory := []
  transactions : List Transaction := []

/-- The empty database: no rows anywhere. -/
def WalletState.empty : WalletState :=
  { balances := fun _ => {} }

/-- Update one player's balance row. -/
def WalletState.setBalance (st : WalletState) (player_id : String)
    (b : LoyaltyBalance) : WalletState :=
  { st with balances := fun p => if p = player_id then b else st.balances p }

/-- `WalletManager.create_transaction`: append-only audit write. -/
def createTransaction (st : WalletState) (t : Transaction) : WalletState :=
  { st with transactions := st.transactions ++ [t] }

/-- `WalletManager.add_loyalty_points` (`wallet_manager.py` lines 69-134):
credit `lp_balance`, record an `LP_EARNED` transaction, then append a FIFO
point entry with `remaining_amount = amount` and
`expires_at = now + expiry_days` when `expiry_days` is truthy (Python:
`if expiry_days:` — `0` and `None` are falsy).  The trailing tier-update hook
is external and its failures are swallowed, so it does not appear in the
state.  `entry_id` stands for the autoincrement id. -/
def addLoyaltyPoints (player_id : String) (amount : ℚ) (source : String)
    (description : Option String) (expiry_days : Option ℚ)
    (entry_id : Nat) (now : ℚ) (st : WalletState) :
    Transaction × WalletState :=
  let balance := st.balances player_id
  let balance_before := balance.lp_balance
  let balance1 := { balance with lp_balance := balance.lp_balance + amount }
  let st1 := st.setBalance player_id balance1
  let tx : Transaction :=
    { player_id := player_id
      transaction_type := .LP_EARNED
      currency_type := .LOYALTY_POINTS
      amount := amount
      balance_before := balance_before
      balance_after := balance1.lp_balance
      description := description.getD ("Loyalty points from " ++ source) }
  let st2 := createTransaction st1 tx
  let expires_at : Option ℚ :=
    match expiry_days with
    | some d => if d ≠ 0 then some (now + d * 86400) else none
    | none => none
  let entry : LoyaltyPointEntry :=
    { id := entry_id
      player_id := player_id
      amount := amount
      remaining_amount := amount
      source_type := source
      issued_at := now
      expires_at := expires_at }
  let st3 := { st2 with entries := st2.entries ++ [entry] }
  (tx, st3)

/-- `WalletManager.add_bonus_balance` (`wallet_manager.py` lines 136-201):
credit `bonus_balance`; ADD the wagering requirement to the existing one;
overwrite expiry / max-bet / eligible-games only when the argument is truthy
(`None`, `0` and `[]` are falsy); record a `BONUS_ISSUED` transaction whose
`reference_id` is `str(reward_id)` when `reward_id` is truthy. -/
def addBonusBalance (player_id : String) (amount : ℚ)
    (wagering_requirement : ℚ) (expiry : Option ℚ) (max_bet : Option ℚ)
    (eligible_games : Option (List String)) (reward_id : Option Nat)
    (description : Option String) (st : WalletState) :
    Transaction × WalletState :=
  let balance := st.balances player_id
  let balance_before := balance.bonus_balance
  let balance1 := { balance with bonus_balance := balance.bonus_balance + amount }
  let balance2 :=
    { balance1 with bonus_wagering_required :=
        balance1.bonus_wagering_required + wagering_requirement }
  let balance3 :=
    match expiry with
    | some e => { balance2 with bonus_expiry := some e }
    | none => balance2
  let balance4 :=
    match max_bet with
    | some m => if m ≠ 0 then { balance3 with bonus_max_bet := some m } else balance3
    | none => balance3
  let balance5 :=
    match eligible_games with
    | some gs => if gs ≠ [] then { balance4 with bonus_eligible_games := gs } else balance4
    | none => balance4
  let st1 := st.setBalance player_id balance5
  let tx : Transaction :=
    { player_id := player_id
      transaction_type := .BONUS_ISSUED
      currency_type := .BONUS_BALANCE
      amount := amount
      balance_before := balance_before
      balance_after := balance1.bonus_balance
      description := description.getD "Bonus balance issued"
      reference_id :=
        match reward_id with
        | some i => if i ≠ 0 then some (String.mk (natDigitsCh i)) else none
        | none => none }
  (tx, createTransaction st1 tx)

/-- Errors the wallet raises (`ValueError` / `NotImplementedError` with the
corresponding messages). -/
inductive WErr where
  | unknownCurrency
  | insufficientBalance
  | rewardNotFound
  | rewardNotPending
  | notImplementedCurrency
deriving DecidableEq, Repr

/-- The balance field backing a currency (`wallet_manager.py` lines 227-237);
`CASH` has no balance column and falls to the `Unknown currency type`
branch. -/
def currencyBalance? (c : CurrencyType) (b : LoyaltyBalance) : Option ℚ :=
  match c with
  | .LOYALTY_POINTS => some b.lp_balance
  | .REWARD_POINTS => some b.rp_balance
  | .BONUS_BALANCE => some b.bonus_balance
  | .TICKETS => some (b.tickets_balance : ℚ)
  | .CASH => none

/-- Python `int(x)` on a rational: truncation toward zero. -/
def ratTrunc (q : ℚ) : Int :=
  if q < 0 then -Rat.floor (-q) else Rat.floor q

/-- Write `new_balance` into the field for `c` (`wallet_manager.py` lines
249-257; tickets are cast with `int(...)`). -/
def setCurrencyBalance (c : CurrencyType) (b : LoyaltyBalance) (v : ℚ) :
    LoyaltyBalance :=
  match c with
  | .LOYALTY_POINTS => { b with lp_balance := v }
  | .REWARD_POINTS => { b with rp_balance := v }
  | .BONUS_BALANCE => { b with bonus_balance := v }
  | .TICKETS => { b with tickets_balance := ratTrunc v }
  | .CASH => b

/-- The body of `WalletManager._deduct_lp_fifo` (`wallet_manager.py` lines
278-299): walk the player's not-expired, positive-remainder entries in
`issued_at` order, consuming `min(remaining_amount, amount_left)` from each
until `amount_left` reaches `0`. -/
def fifoGo (player_id : String) : ℚ → List LoyaltyPointEntry → List LoyaltyPointEntry
  | _, [] => []
  | r, e :: es =>
    if e.player_id = player_id ∧ 0 < e.remaining_amount ∧ e.is_expired = false then
      if r ≤ 0 then e :: fifoGo player_id r es
      else if e.remaining_amount ≤ r then
        { e with remaining_amount := 0 } :: fifoGo player_id (r - e.remaining_amount) es
      else
        { e with remaining_amount := e.remaining_amount - r } :: fifoGo player_id 0 es
    else e :: fifoGo player_id r es

/-- `WalletManager._deduct_lp_fifo`. -/
def deductLpFifo (player_id : String) (amount : ℚ) (st : WalletState) : WalletState :=
  { st with entries := fifoGo player_id amount st.entries }

/-- `WalletManager.deduct_balance` (`wallet_manager.py` lines 203-276): read
the currency's balance; raise `InsufficientBalance` when it is below
`amount` (before any mutation); otherwise write the decreased balance,
record an `LP_REDEEMED` transaction with negative amount, and for loyalty
points run the FIFO consumption.  The returned state on an error is the
untouched input state. -/
def deductBalance (player_id : String) (currency_type : CurrencyType)
    (amount : ℚ) (description : Option String) (st : WalletState) :
    Except WErr Transaction × WalletState :=
  let balance := st.balances player_id
  match currencyBalance? currency_type balance with
  | none => (.error .unknownCurrency, st)
  | some current_balance =>
    if current_balance < amount then (.error .insufficientBalance, st)
    else
      let new_balance := current_balance - amount
      let balance1 := setCurrencyBalance currency_type balance new_balance
      let st1 := st.setBalance player_id balance1
      let tx : Transaction :=
        { player_id := player_id
          transaction_type := .LP_REDEEMED
          currency_type := currency_type
          amount := -amount
          balance_before := current_balance
          balance_after := new_balance
          description := description.getD ("Deducted " ++ currency_type.value) }
      let st2 := createTransaction st1 tx
      let st3 :=
        if currency_type = .LOYALTY_POINTS then deductLpFifo player_id amount st2
        else st2
      (.ok tx, st3)

/-- SQL `column <= now` on a nullable timestamp: false on NULL. -/
def optLe : Option ℚ → ℚ → Prop
  | some t, now => t ≤ now
  | none, _ => False

instance (o : Option ℚ) (now : ℚ) : Decidable (optLe o now) := by
  cases o <;> simp only [optLe] <;> exact inferInstance

/-- Does `process_point_expiry` select this entry?
(`wallet_manager.py` lines 370-374: not expired, `expires_at <= now` — an
entry with NULL expiry is never selected — and positive remainder). -/
def expirySel (now : ℚ) (e : LoyaltyPointEntry) : Prop :=
  e.is_expired = false ∧ optLe e.expires_at now ∧ 0 < e.remaining_amount

instance (now : ℚ) (e : LoyaltyPointEntry) : Decidable (expirySel now e) := by
  unfold expirySel
  exact inferInstance

/-- The loop of `WalletManager.process_point_expiry` (`wallet_manager.py`
lines 367-401): for each selected entry, debit the owner's `lp_balance` by
its remainder, record an `LP_EXPIRED` transaction, and mark the entry expired
with remainder `0`.  Selection is decided against the pre-loop state of every
entry (the query runs once), which the single left-to-right pass preserves
because each entry is visited exactly once. -/
def ppeGo (now : ℚ) :
    List LoyaltyPointEntry → (String → LoyaltyBalance) → List Transaction →
    Nat × List LoyaltyPointEntry × (String → LoyaltyBalance) × List Transaction
  | [], bals, txs => (0, [], bals, txs)
  | e :: es, bals, txs =>
    if expirySel now e then
      let amount := e.remaining_amount
      let b := bals e.player_id
      let b1 := { b with lp_balance := b.lp_balance - amount }
      let bals1 := fun p => if p = e.player_id then b1 else bals p
      let tx : Transaction :=
        { player_id := e.player_id
          transaction_type := .LP_EXPIRED
          currency_type := .LOYALTY_POINTS
          amount := -amount
          balance_before := b.lp_balance
          balance_after := b1.lp_balance
          description := "Points expired (Entry #" ++ String.mk (natDigitsCh e.id) ++ ")" }
      let r := ppeGo now es bals1 (txs ++ [tx])
      (r.1 + 1, { e with is_expired := true, remaining_amount := 0 } :: r.2.1,
        r.2.2.1, r.2.2.2)
    else
      let r := ppeGo now es bals txs
      (r.1, e :: r.2.1, r.2.2.1, r.2.2.2)

/-- `WalletManager.process_point_expiry`: returns the number of expired
entries and the updated state. -/
def processPointExpiry (now : ℚ) (st : WalletState) : Nat × WalletState :=
  let r := ppeGo now st.entries st.balances st.transactions
  (r.1, { st with entries := r.2.1, balances := r.2.2.1, transactions := r.2.2.2 })

/-- Does `expire_bonuses` select this balance?
(`wallet_manager.py` lines 472-475: positive bonus and
`bonus_expiry <= utcnow()`; a NULL expiry is never selected). -/
def bonusSel (now : ℚ) (b : LoyaltyBalance) : Prop :=
  0 < b.bonus_balance ∧ optLe b.bonus_expiry now

instance (now : ℚ) (b : LoyaltyBalance) : Decidable (bonusSel now b) := by
  unfold bonusSel
  exact inferInstance

/-- The cleared bonus state `expire_bonuses` writes (`wallet_manager.py`
lines 491-495). -/
def clearBonus (b : LoyaltyBalance) : LoyaltyBalance :=
  { b with
    bonus_balance := 0
    bonus_wagering_required := 0
    bonus_wagering_completed := 0
    bonus_expiry := none }

/-- `WalletManager.expire_bonuses` (`wallet_manager.py` lines 462-503) over
the list of balance rows (each paired with its `player_id`): for every
selected row, emit a `BONUS_EXPIRED` transaction for the forfeited amount and
clear the bonus and wagering state; return the count, the updated rows and
the emitted transactions. -/
def expireBonuses (now : ℚ) :
    List (String × LoyaltyBalance) →
    Nat × List (String × LoyaltyBalance) × List Transaction
  | [] => (0, [], [])
  | (p, b) :: rest =>
    if bonusSel now b then
      let amount := b.bonus_balance
      let tx : Transaction :=
        { player_id := p
          transaction_type := .BONUS_EXPIRED
          currency_type := .BONUS_BALANCE
          amount := -amount
          balance_before := amount
          balance_after := 0
          description := "Bonus expired" }
      let r := expireBonuses now rest
      (r.1 + 1, (p, clearBonus b) :: r.2.1, tx :: r.2.2)
    else
      let r := expireBonuses now rest
      (r.1, (p, b) :: r.2.1, r.2.2)

/-- `RewardHistory` lookup by id (`query.filter(RewardHistory.id ==
reward_id).first()`). -/
def findReward (reward_id : Nat) : List RewardHistory → Option RewardHistory
  | [] => none
  | r :: rs => if r.id = reward_id then some r else findReward reward_id rs

/-- Flip the status of the reward with the given id to `ACTIVE`
(`reward.status = RewardStatus.ACTIVE`). -/
def setRewardActive (reward_id : Nat) : List RewardHistory → List RewardHistory
  | [] => []
  | r :: rs =>
    (if r.id = reward_id then { r with status := .ACTIVE } else r)
      :: setRewardActive reward_id rs

/-- `WalletManager.issue_reward` (`wallet_manager.py` lines 505-556): load
the reward; fail if absent or not `PENDING`; dispatch on the currency type to
`add_loyalty_points` / `add_bonus_balance` (other currencies raise
`NotImplementedError` before any mutation); then flip the status to
`ACTIVE`.  `entry_id` stands for the autoincrement id a loyalty-point credit
would allocate. -/
def issueReward (reward_id : Nat) (entry_id : Nat) (now : ℚ) (st : WalletState) :
    Except WErr Transaction × WalletState :=
  match findReward reward_id st.rewards with
  | none => (.error .rewardNotFound, st)
  | some reward =>
    if reward.status ≠ .PENDING then (.error .rewardNotPending, st)
    else
      match reward.currency_type with
      | .LOYALTY_POINTS =>
        let r := addLoyaltyPoints reward.player_id reward.amount "REWARD"
          (some ("Reward from rule " ++ (reward.rule_id.getD "None")))
          reward.lp_expiry_days entry_id now st
        let st2 := { r.2 with rewards := setRewardActive reward_id r.2.rewards }
        (.ok r.1, st2)
      | .BONUS_BALANCE =>
        let r := addBonusBalance reward.player_id reward.amount
          reward.wagering_required reward.expires_at reward.max_bet
          reward.eligible_games (some reward.id)
          (some ("Bonus from rule " ++ (reward.rule_id.getD "None"))) st
        let st2 := { r.2 with rewards := setRewardActive reward_id r.2.rewards }
        (.ok r.1, st2)
      | _ => (.error .notImplementedCurrency, st)

/-- `RewardType[s]` (Python enum lookup by name; raises `KeyError` on an
unknown name, modelled as `none`). -/
def rewardTypeOfString (s : String) : Option RewardType :=
  if s = "CASHBACK" then some .CASHBACK
  else if s = "BONUS_BALANCE" then some .BONUS_BALANCE
  else if s = "FREE_PLAY" then some .FREE_PLAY
  else if s = "LOYALTY_POINTS" then some .LOYALTY_POINTS
  else if s = "REWARD_POINTS" then some .REWARD_POINTS
  else if s = "TICKETS" then some .TICKETS
  else if s = "VIP_PERKS" then some .VIP_PERKS
  else none

/-- The `currency_map` of `RulesEngine.create_reward` (`rules_engine.py`
lines 209-217), including its `.get(..., BONUS_BALANCE)` default for
`VIP_PERKS`. -/
def currencyOfRewardType : RewardType → CurrencyType
  | .LOYALTY_POINTS => .LOYALTY_POINTS
  | .REWARD_POINTS => .REWARD_POINTS
  | .BONUS_BALANCE => .BONUS_BALANCE
  | .FREE_PLAY => .BONUS_BALANCE
  | .TICKETS => .TICKETS
  | .CASHBACK => .BONUS_BALANCE
  | .VIP_PERKS => .BONUS_BALANCE

/-- `RulesEngine.create_reward` (`rules_engine.py` lines 183-257): map the
configured type to a currency, set `wagering_required = amount *
wagering_requirement` (multiplier defaulting to `0`), compute the expiry from
`expiry_hours` (truthy check), start in `PENDING`, and snapshot
`eligible_games` / `max_bet` into the metadata.  `none` models the `KeyError`
of `RewardType[...]` on an unknown type string.  `rid` stands for the
autoincrement id. -/
def createReward (player_id : String) (rule : RewardRule) (amount : ℚ)
    (rid : Nat) (now : ℚ) : Option RewardHistory :=
  let cfg := rule.reward_config
  match rewardTypeOfString (cfg.type.getD "BONUS_BALANCE") with
  | none => none
  | some rt =>
    let currency := currencyOfRewardType rt
    let wagering_required := amount * (cfg.wagering_requirement.getD 0)
    let expires_at : Option ℚ :=
      match cfg.expiry_hours with
      | some h => if h ≠ 0 then some (now + h * 3600) else none
      | none => none
    some
      { id := rid
        player_id := player_id
        rule_id := some rule.rule_id
        reward_type := rt
        amount := amount
        currency_type := currency
        status := .PENDING
        wagering_required := wagering_required
        wagering_completed := 0
        expires_at := expires_at
        lp_expiry_days := none
        max_bet := cfg.max_bet
        eligible_games := some (cfg.eligible_games.getD []) }

/-- Sum of `remaining_amount` over a player's non-expired point entries (the
right-hand side of the spec's ledger invariant). -/
def lpSum (player_id : String) : List LoyaltyPointEntry → ℚ
  | [] => 0
  | e :: es =>
    (if e.player_id = player_id ∧ e.is_expired = false then e.remaining_amount else 0)
      + lpSum player_id es

/-- Sum of `remaining_amount` over the entries `_deduct_lp_fifo` can consume
(non-expired with positive remainder). -/
def posSum (player_id : String) : List LoyaltyPointEntry → ℚ
  | [] => 0
  | e :: es =>
    (if e.player_id = player_id ∧ 0 < e.remaining_amount ∧ e.is_expired = false
      then e.remaining_amount else 0)
      + posSum player_id es

/-- The ledger invariant of `spec.md` §8 for one player: the cached
`lp_balance` equals the sum of remaining amounts over that player's
non-expired point entries. -/
def lpInv (st : WalletState) (player_id : String) : Prop :=
  (st.balances player_id).lp_balance = lpSum player_id st.entries

/-- Sum of `remaining_amount` over the entries of player `q` that
`process_point_expiry` selects at time `now`. -/
def ppeSum (now : ℚ) (q : String) : List LoyaltyPointEntry → ℚ
  | [] => 0
  | e :: es =>
    (if e.player_id = q ∧ expirySel now e then e.remaining_amount else 0)
      + ppeSum now q es

/-- The balance field `issue_reward` credits for the two implemented
currencies (`0` for the others, which `issue_reward` refuses). -/
def creditField (c : CurrencyType) (b : LoyaltyBalance) : ℚ :=
  match c with
  | .LOYALTY_POINTS => b.lp_balance
  | .BONUS_BALANCE => b.bonus_balance
  | _ => 0

/-- The character alphabet of `ratStr`: digits, minus sign, slash. -/
def isNumCh (c : Char) : Bool := c.isDigit || c = '-' || c = '/'

/-- A concrete PENDING loyalty-points reward of 25. -/
def examplePendingReward : RewardHistory :=
  { id := 1
    player_id := "p1"
    reward_type := RewardType.LOYALTY_POINTS
    amount := 25
    currency_type := CurrencyType.LOYALTY_POINTS }

/-- A concrete issuing scenario: a fresh wallet holding only
`examplePendingReward`. -/
def exampleIssueState : WalletState :=
  { balances := fun _ => {}
    rewards := [examplePendingReward] }

/-- A concrete rule issuing a 50 bonus with wagering multiplier 10
(the round-trip example of `spec.md` §8). -/
def exampleBonusRule : RewardRule :=
  { rule_id := "comeback_bonus"
    reward_config :=
      { type := some "BONUS_BALANCE"
        formula := some "50"
        wagering_requirement := some 10 } }

/-- The reward record `create_reward` makes for `exampleBonusRule` at amount
50 (id 1, time 0). -/
def exampleBonusReward : RewardHistory :=
  match createReward "p1" exampleBonusRule 50 1 0 with
  | some r => r
  | none =>
    { id := 0
      player_id := ""
      reward_type := RewardType.CASHBACK
      amount := 0
      currency_type := CurrencyType.CASH }

/-- A fresh wallet holding only `exampleBonusReward`, still PENDING. -/
def exampleBonusState : WalletState :=
  { balances := fun _ => {}
    rewards := [exampleBonusReward] }

/-! ## Theorems -/

/-- C9: evaluating an empty condition mapping returns true (a conjunction
over zero predicates holds vacuously), so an active rule with empty
conditions is applicable to every player state. -/
theorem c9_empty_condition_matches_all (rule : RewardRule) (state : PlayerState)
    (hact : rule.is_active = true) (hcond : rule.conditions = []) :
    evaluateRule rule state = .ok true := by
  simp [evaluateRule, hact, hcond, evaluateCondition]

/-- Witness for C9 at a concrete active rule with empty conditions. -/
theorem c9_empty_condition_matches_all_witness :
    evaluateRule { rule_id := "r1", is_active := true, conditions := [] }
      [("net_loss", Prim.num 5)] = .ok true :=
  c9_empty_condition_matches_all _ _ rfl rfl

/-- C10: `apply_caps` clamps only when `max_amount` is truthy: an absent /
`None` / `0` cap leaves the raw amount unchanged, so a configured cap of
exactly `0` never clamps. -/
theorem c10_zero_cap_never_clamps (amount : ℚ) (cfg : RewardConfig)
    (h : cfg.max_amount = none ∨ cfg.max_amount = some 0) :
    applyCaps amount cfg = amount := by
  rcases h with h | h <;> simp [applyCaps, h]

/-- Witness for C10: a cap of exactly `0` does not clamp an amount of
`1000`. -/
theorem c10_zero_cap_never_clamps_witness :
    applyCaps 1000 { max_amount := some 0 } = 1000 :=
  c10_zero_cap_never_clamps 1000 { max_amount := some 0 } (Or.inr rfl)

/-- C8: a `_min`-suffixed condition key with a scalar numeric value holds
exactly when the state has the base field (suffix stripped) with a value
`>= ` the bound; a missing base field makes the predicate false (and a
non-numeric state value raises, which is not `True` either). -/
theorem c8_min_suffix_inclusive (key : String) (q : ℚ) (state : PlayerState)
    (hk : strEndsWith key "_min" = true) :
    evaluateCondition [(key, CondV.prim (Prim.num q))] state = .ok true ↔
      ∃ x, sget state (strDropRight key 4) = some (Prim.num x) ∧ q ≤ x := by
  simp only [evaluateCondition, hk, if_true]
  cases hg : sget state (strDropRight key 4) with
  | none => simp
  | some pv =>
    cases pv with
    | num x =>
      rcases hd : decide (x < q) with _ | _
      · have hx : ¬ x < q := of_decide_eq_false hd
        simp only [primLt, hd]
        constructor
        · intro _
          exact ⟨x, rfl, not_lt.mp hx⟩
        · intro _
          trivial
      · have hx : x < q := of_decide_eq_true hd
        simp only [primLt, hd]
        constructor
        · intro h
          exact absurd h (by simp)
        · rintro ⟨y, hy, hqy⟩
          injection hy with hy
          injection hy with hy
          rw [hy] at hx
          exact absurd hqy (not_le.mpr hx)
    | str s =>
      simp only [primLt]
      constructor
      · intro h
        exact absurd h (by simp)
      · rintro ⟨y, hy, _⟩
        exact absurd hy (by simp)

/-- Witness for C8: the claim's boundary example, `net_loss_min = 100`
against `net_loss = 100` (inclusive) and against `net_loss = 99`. -/
theorem c8_min_suffix_inclusive_witness :
    evaluateCondition [("net_loss_min", CondV.prim (Prim.num 100))]
        [("net_loss", Prim.num 100)] = .ok true
    ∧ evaluateCondition [("net_loss_min", CondV.prim (Prim.num 100))]
        [("net_loss", Prim.num 99)] ≠ .ok true := by
  constructor
  · exact (c8_min_suffix_inclusive "net_loss_min" 100 [("net_loss", Prim.num 100)]
      (by decide)).mpr ⟨100, rfl, by norm_num⟩
  · intro hcontra
    obtain ⟨x, hx, hqx⟩ := (c8_min_suffix_inclusive "net_loss_min" 100
      [("net_loss", Prim.num 99)] (by decide)).mp hcontra
    have h99 : sget [("net_loss", Prim.num 99)] (strDropRight "net_loss_min" 4)
        = some (Prim.num 99) := by decide
    rw [h99] at hx
    injection hx with hx
    injection hx with hx
    rw [← hx] at hqx
    norm_num at hqx

/-- C5: when the formula is not a numeric literal and evaluating the
substituted expression fails with any exception, `calculate_reward_amount`
returns `0` instead of propagating the exception. -/
theorem c5_eval_failure_returns_zero (rule : RewardRule) (state : PlayerState)
    (e : EvalErr)
    (h1 : parseDecimal (rule.reward_config.formula.getD "0") = none)
    (h2 : evalExpr (substState state (rule.reward_config.formula.getD "0")) = .error e) :
    calcRewardAmount rule state = 0 := by
  simp [calcRewardAmount, h1, h2]

/-- Witness for C5: an undefined name in the formula (`NameError` under
empty builtins) yields amount `0`. -/
theorem c5_eval_failure_returns_zero_witness :
    calcRewardAmount { rule_id := "r", reward_config := { formula := some "oops" } } [] = 0 :=
  c5_eval_failure_returns_zero
    { rule_id := "r", reward_config := { formula := some "oops" } } []
    (.nameError "oops") (by decide) rfl

/-- C4: `deduct_balance` raises `InsufficientBalance` exactly when the
currency's current balance is strictly below the requested amount, and on
any error the state (balances, entries, transaction log) is returned
untouched — no partial debit, no transaction row. -/
theorem c4_deduct_all_or_nothing (st : WalletState) (pid : String)
    (c : CurrencyType) (amount b : ℚ) (descr : Option String)
    (hb : currencyBalance? c (st.balances pid) = some b) :
    (((deductBalance pid c amount descr st).1 = .error .insufficientBalance) ↔ b < amount)
    ∧ (∀ e, (deductBalance pid c amount descr st).1 = .error e →
        (deductBalance pid c amount descr st).2 = st) := by
  by_cases hlt : b < amount
  · simp only [deductBalance, hb, hlt, if_true]
    simp
  · simp only [deductBalance, hb, hlt, if_false]
    simp

/-- A sweep over rows none of which are selected is a no-op returning 0. -/
theorem expireBonuses_noop (now : ℚ) (bs : List (String × LoyaltyBalance))
    (h : ∀ pb ∈ bs, ¬ bonusSel now pb.2) :
    expireBonuses now bs = (0, bs, []) := by
  induction bs with
  | nil => simp [expireBonuses]
  | cons pb rest ih =>
    obtain ⟨p, b⟩ := pb
    have hb : ¬ bonusSel now b := h (p, b) (List.mem_cons_self _ _)
    simp only [expireBonuses, if_neg hb]
    rw [ih (fun x hx => h x (List.mem_cons_of_mem _ hx))]

/-- The sweep rewrites exactly the selected rows, clearing their bonus
state, and leaves every other row untouched. -/
theorem expireBonuses_map (now : ℚ) (bs : List (String × LoyaltyBalance)) :
    (expireBonuses now bs).2.1 =
      bs.map (fun pb => if bonusSel now pb.2 then (pb.1, clearBonus pb.2) else pb) := by
  induction bs with
  | nil => simp [expireBonuses]
  | cons pb rest ih =>
    obtain ⟨p, b⟩ := pb
    by_cases hb : bonusSel now b
    · simp only [expireBonuses, if_pos hb, List.map_cons]
      rw [ih]
    · simp only [expireBonuses, if_neg hb, List.map_cons]
      rw [ih]

/-- A cleared row is never selected again (its bonus balance is 0). -/
theorem bonusSel_clearBonus (now : ℚ) (b : LoyaltyBalance) :
    ¬ bonusSel now (clearBonus b) := by
  intro h
  exact absurd h.1 (by simp [clearBonus])

/-- C6: `expire_bonuses` acts exactly on the balances with positive bonus
whose expiry has passed, zeroing the bonus balance and all wagering state;
running it again immediately afterwards expires nothing, returns 0 and emits
no transaction (idempotence). -/
theorem c6_expire_bonuses_idempotent (now : ℚ)
    (bs : List (String × LoyaltyBalance)) :
    (expireBonuses now bs).2.1 =
      bs.map (fun pb => if bonusSel now pb.2 then (pb.1, clearBonus pb.2) else pb)
    ∧ (expireBonuses now (expireBonuses now bs).2.1).1 = 0
    ∧ (expireBonuses now (expireBonuses now bs).2.1).2.1 = (expireBonuses now bs).2.1
    ∧ (expireBonuses now (expireBonuses now bs).2.1).2.2 = [] := by
  have hmap := expireBonuses_map now bs
  have hnone : ∀ pb ∈ (expireBonuses now bs).2.1, ¬ bonusSel now pb.2 := by
    rw [hmap]
    intro pb hpb
    obtain ⟨src, _, hsrc⟩ := List.mem_map.mp hpb
    by_cases hs : bonusSel now src.2
    · rw [if_pos hs] at hsrc
      rw [← hsrc]
      exact bonusSel_clearBonus now src.2
    · rw [if_neg hs] at hsrc
      rw [← hsrc]
      exact hs
  have hnoop := expireBonuses_noop now (expireBonuses now bs).2.1 hnone
  exact ⟨hmap, by rw [hnoop], by rw [hnoop], by rw [hnoop]⟩

/-- The FIFO-consumable mass is nonnegative. -/
theorem posSum_nonneg (pid : String) (es : List LoyaltyPointEntry) :
    0 ≤ posSum pid es := by
  induction es with
  | nil => simp [posSum]
  | cons e es ih =>
    simp only [posSum]
    have h : (0:ℚ) ≤ if e.player_id = pid ∧ 0 < e.remaining_amount ∧ e.is_expired = false
        then e.remaining_amount else 0 := by
      split
      · next hc => exact le_of_lt hc.2.1
      · exact le_refl 0
    linarith

/-- The ledger sum is bounded by the FIFO-consumable mass. -/
theorem lpSum_le_posSum (pid : String) (es : List LoyaltyPointEntry) :
    lpSum pid es ≤ posSum pid es := by
  induction es with
  | nil => simp [lpSum, posSum]
  | cons e es ih =>
    simp only [lpSum, posSum]
    have h : (if e.player_id = pid ∧ e.is_expired = false then e.remaining_amount else 0)
        ≤ if e.player_id = pid ∧ 0 < e.remaining_amount ∧ e.is_expired = false
            then e.remaining_amount else 0 := by
      by_cases h1 : e.player_id = pid ∧ e.is_expired = false
      · rw [if_pos h1]
        by_cases h2 : 0 < e.remaining_amount
        · rw [if_pos ⟨h1.1, h2, h1.2⟩]
        · rw [if_neg (fun hc => h2 hc.2.1)]
          exact le_of_not_lt h2
      · rw [if_neg h1, if_neg (fun hc => h1 ⟨hc.1, hc.2.2⟩)]
    linarith

/-- Ledger sum over an appended entry. -/
theorem lpSum_append (pid : String) (es : List LoyaltyPointEntry)
    (e : LoyaltyPointEntry) :
    lpSum pid (es ++ [e]) = lpSum pid es +
      (if e.player_id = pid ∧ e.is_expired = false then e.remaining_amount else 0) := by
  induction es with
  | nil => simp [lpSum]
  | cons f es ih =>
    simp only [List.cons_append, lpSum, List.append_eq]
    rw [ih]
    ring

/-- FIFO consumption for one player never touches another player's ledger
sum. -/
theorem fifoGo_other (pid q : String) (hq : q ≠ pid) (r : ℚ)
    (es : List LoyaltyPointEntry) :
    lpSum q (fifoGo pid r es) = lpSum q es := by
  induction es generalizing r with
  | nil => simp [fifoGo]
  | cons e es ih =>
    simp only [fifoGo]
    by_cases hsel : e.player_id = pid ∧ 0 < e.remaining_amount ∧ e.is_expired = false
    · have hne : ¬ (e.player_id = q ∧ e.is_expired = false) := by
        rintro ⟨hc, -⟩
        rw [hsel.1] at hc
        exact hq hc.symm
      rw [if_pos hsel]
      by_cases hr : r ≤ 0
      · rw [if_pos hr]
        simp only [lpSum]
        rw [ih]
      · rw [if_neg hr]
        by_cases hle : e.remaining_amount ≤ r
        · rw [if_pos hle]
          simp only [lpSum]
          rw [ih]
          simp only [if_neg hne]
        · rw [if_neg hle]
          simp only [lpSum]
          rw [ih]
          simp only [if_neg hne]
    · rw [if_neg hsel]
      simp only [lpSum]
      rw [ih]

/-- FIFO consumption of `r` (with enough consumable mass) decreases the
player's ledger sum by exactly `r`. -/
theorem fifoGo_lpSum (pid : String) (r : ℚ) (es : List LoyaltyPointEntry)
    (hr : 0 ≤ r) (hle : r ≤ posSum pid es) :
    lpSum pid (fifoGo pid r es) = lpSum pid es - r := by
  induction es generalizing r with
  | nil =>
    simp only [posSum] at hle
    have : r = 0 := le_antisymm hle hr
    simp [fifoGo, lpSum, this]
  | cons e es ih =>
    by_cases hsel : e.player_id = pid ∧ 0 < e.remaining_amount ∧ e.is_expired = false
    · have hlp : e.player_id = pid ∧ e.is_expired = false := ⟨hsel.1, hsel.2.2⟩
      have hposs : posSum pid (e :: es) = e.remaining_amount + posSum pid es := by
        simp only [posSum, if_pos hsel]
      simp only [fifoGo, if_pos hsel]
      by_cases hr0 : r ≤ 0
      · have hrz : r = 0 := le_antisymm hr0 hr
        rw [if_pos hr0]
        simp only [lpSum, if_pos hlp]
        rw [ih r hr (by rw [hrz]; exact posSum_nonneg pid es), hrz]
        ring
      · rw [if_neg hr0]
        by_cases hler : e.remaining_amount ≤ r
        · rw [if_pos hler]
          simp only [lpSum]
          rw [hposs] at hle
          rw [ih (r - e.remaining_amount) (by linarith) (by linarith)]
          simp only [if_pos hlp]
          ring
        · rw [if_neg hler]
          simp only [lpSum]
          rw [ih 0 (le_refl 0) (posSum_nonneg pid es)]
          simp only [if_pos hlp]
          ring
    · have hposs : posSum pid (e :: es) = posSum pid es := by
        simp only [posSum, if_neg hsel]
        ring
      simp only [fifoGo, if_neg hsel]
      simp only [lpSum]
      rw [ih r hr (by rw [hposs] at hle; exact hle)]
      ring

/-- The expiry sweep debits each player's cached balance and ledger sum by
the same total (the selected remainders of that player). -/
theorem ppeGo_lp (now : ℚ) (es : List LoyaltyPointEntry) :
    ∀ (bals : String → LoyaltyBalance) (txs : List Transaction) (q : String),
      ((ppeGo now es bals txs).2.2.1 q).lp_balance
          = (bals q).lp_balance - ppeSum now q es
      ∧ lpSum q (ppeGo now es bals txs).2.1 = lpSum q es - ppeSum now q es := by
  induction es with
  | nil =>
    intro bals txs q
    simp [ppeGo, ppeSum, lpSum]
  | cons e es ih =>
    intro bals txs q
    by_cases hsel : expirySel now e
    · simp only [ppeGo, if_pos hsel]
      constructor
      · rw [(ih _ _ q).1]
        by_cases hq : q = e.player_id
        · subst hq
          rw [if_pos rfl]
          simp only [ppeSum]
          rw [if_pos (show True ∧ expirySel now e from And.intro trivial hsel)]
          ring
        · rw [if_neg hq]
          have hne : ¬ (e.player_id = q ∧ expirySel now e) := fun hc => hq hc.1.symm
          simp only [ppeSum, if_neg hne]
          ring
      · simp only [lpSum]
        rw [(ih _ _ q).2]
        have hexp : e.is_expired = false := hsel.1
        simp only [ppeSum]
        rw [show (if e.player_id = q ∧ true = false then (0:ℚ) else 0) = 0 from if_neg
          (fun hc => Bool.noConfusion hc.2)]
        by_cases hq : e.player_id = q
        · rw [if_pos (And.intro hq hexp), if_pos (And.intro hq hsel)]
          ring
        · rw [if_neg (fun hc : e.player_id = q ∧ e.is_expired = false => hq hc.1),
            if_neg (fun hc : e.player_id = q ∧ expirySel now e => hq hc.1)]
          ring
    · simp only [ppeGo, if_neg hsel]
      have hne : ¬ (e.player_id = q ∧ expirySel now e) := by
        rintro ⟨-, hc⟩
        exact hsel hc
      constructor
      · rw [(ih _ _ q).1]
        simp only [ppeSum, if_neg hne]
        ring
      · simp only [lpSum]
        rw [(ih _ _ q).2]
        simp only [ppeSum, if_neg hne]
        ring

/-- Counterexample for C1 as stated: from a state satisfying the invariant
(a fresh, empty wallet), `deduct_balance` of the negative amount `-10` in
loyalty points completes (the insufficiency check `0 < -10` passes), credits
`lp_balance` to `10`, but the FIFO pass consumes nothing (its running amount
starts `≤ 0`), leaving `lp_balance = 10` against an entry sum of `0`. -/
theorem c1_lp_ledger_invariant_counterexample :
    lpInv WalletState.empty "p1"
    ∧ (deductBalance "p1" .LOYALTY_POINTS (-10) none WalletState.empty).1.isOk = true
    ∧ ¬ lpInv (deductBalance "p1" .LOYALTY_POINTS (-10) none WalletState.empty).2 "p1" := by
  refine ⟨rfl, rfl, fun h => ?_⟩
  norm_num [lpInv, deductBalance, currencyBalance?, WalletState.empty,
    WalletState.setBalance, setCurrencyBalance, createTransaction,
    deductLpFifo, fifoGo, lpSum] at h

/-- C1 (amended): provided the deducted amount is nonnegative, every
completed ledger operation preserves the invariant `lp_balance = Σ
remaining_amount` over non-expired entries, for every player:
`add_loyalty_points` always, `deduct_balance` in loyalty points whenever it
completes without raising, and `process_point_expiry` always.  (The
counterexample shows a negative-amount deduction, which the code accepts,
breaks the invariant; nonnegativity is the amendment.) -/
theorem c1_lp_ledger_invariant_preserved (st : WalletState) (now : ℚ) :
    (∀ pid amount source descr days eid q,
      lpInv st q → lpInv (addLoyaltyPoints pid amount source descr days eid now st).2 q)
    ∧ (∀ pid amount descr tx st2, 0 ≤ amount →
        (∀ q, lpInv st q) →
        deductBalance pid .LOYALTY_POINTS amount descr st = (.ok tx, st2) →
        ∀ q, lpInv st2 q)
    ∧ (∀ q, lpInv st q → lpInv (processPointExpiry now st).2 q) := by
  refine ⟨?_, ?_, ?_⟩
  · intro pid amount source descr days eid q hq
    unfold lpInv at hq ⊢
    simp only [addLoyaltyPoints, createTransaction, WalletState.setBalance]
    rw [lpSum_append]
    by_cases hqp : q = pid
    · subst hqp
      rw [if_pos rfl]
      dsimp only
      rw [if_pos (show q = q ∧ false = false from ⟨rfl, rfl⟩)]
      rw [hq]
    · rw [if_neg hqp]
      dsimp only
      rw [if_neg (fun hc : pid = q ∧ false = false => hqp hc.1.symm)]
      rw [hq]
      ring
  · intro pid amount descr tx st2 hamt hinv hsucc
    simp only [deductBalance, currencyBalance?] at hsucc
    by_cases hlt : (st.balances pid).lp_balance < amount
    · rw [if_pos hlt] at hsucc
      exact absurd (congrArg Prod.fst hsucc) (by simp)
    · rw [if_neg hlt] at hsucc
      simp only [Prod.mk.injEq] at hsucc
      obtain ⟨-, hst⟩ := hsucc
      intro q
      unfold lpInv
      rw [← hst]
      simp only [deductLpFifo, createTransaction, WalletState.setBalance,
        setCurrencyBalance, if_true]
      by_cases hqp : q = pid
      · subst hqp
        rw [if_pos rfl]
        dsimp only
        have hle : amount ≤ posSum q st.entries := by
          have h1 : amount ≤ (st.balances q).lp_balance := le_of_not_lt hlt
          have h2 : (st.balances q).lp_balance = lpSum q st.entries := hinv q
          have h3 := lpSum_le_posSum q st.entries
          linarith
        rw [fifoGo_lpSum q amount st.entries hamt hle, ← hinv q]
      · rw [if_neg hqp]
        rw [fifoGo_other pid q hqp amount st.entries, hinv q]
  · intro q hq
    unfold lpInv at hq ⊢
    simp only [processPointExpiry]
    have h := ppeGo_lp now st.entries st.balances st.transactions q
    rw [h.1, h.2, hq]

/-- Witness for C1 (amended): on a fresh wallet, a zero-amount deduction
completes and the invariant still holds afterwards for the touched player. -/
theorem c1_lp_ledger_invariant_preserved_witness :
    lpInv (deductBalance "p1" .LOYALTY_POINTS 0 none WalletState.empty).2 "p1" := by
  obtain ⟨tx, st2, hsucc⟩ :
      ∃ tx st2, deductBalance "p1" .LOYALTY_POINTS 0 none WalletState.empty
        = (.ok tx, st2) := ⟨_, _, rfl⟩
  have happ := (c1_lp_ledger_invariant_preserved WalletState.empty 0).2.1
    "p1" 0 none tx st2 (le_refl 0) (fun _ => rfl) hsucc "p1"
  rw [hsucc]
  exact happ

/-- Looking a reward up after the status flip returns it with status
`ACTIVE`. -/
theorem findReward_setRewardActive (reward_id : Nat) (rs : List RewardHistory) :
    findReward reward_id (setRewardActive reward_id rs)
      = (findReward reward_id rs).map (fun r => { r with status := .ACTIVE }) := by
  induction rs with
  | nil => simp [findReward, setRewardActive]
  | cons r rs ih =>
    by_cases h : r.id = reward_id
    · simp only [setRewardActive, findReward, if_pos h]
      rfl
    · simp only [setRewardActive, findReward, if_neg h]
      exact ih

/-- A loyalty-points credit does not touch the reward table. -/
theorem addLoyaltyPoints_rewards (pid : String) (amount : ℚ) (src : String)
    (descr : Option String) (days : Option ℚ) (eid : Nat) (now : ℚ)
    (st : WalletState) :
    (addLoyaltyPoints pid amount src descr days eid now st).2.rewards
      = st.rewards := rfl

/-- A bonus credit does not touch the reward table. -/
theorem addBonusBalance_rewards (pid : String) (amount wr : ℚ)
    (expiry mb : Option ℚ) (eg : Option (List String)) (rwid : Option Nat)
    (descr : Option String) (st : WalletState) :
    (addBonusBalance pid amount wr expiry mb eg rwid descr st).2.rewards
      = st.rewards := by
  simp only [addBonusBalance, createTransaction, WalletState.setBalance]

/-- A loyalty-points credit adds exactly `amount` to the player's
`lp_balance` and leaves the player's other balance fields unchanged. -/
theorem addLoyaltyPoints_balance (pid : String) (amount : ℚ) (src : String)
    (descr : Option String) (days : Option ℚ) (eid : Nat) (now : ℚ)
    (st : WalletState) :
    ((addLoyaltyPoints pid amount src descr days eid now st).2.balances pid)
      = { st.balances pid with
          lp_balance := (st.balances pid).lp_balance + amount } := by
  simp only [addLoyaltyPoints, createTransaction, WalletState.setBalance, if_true]

/-- A bonus credit adds exactly `amount` to the player's `bonus_balance`. -/
theorem addBonusBalance_bonus (pid : String) (amount wr : ℚ)
    (expiry mb : Option ℚ) (eg : Option (List String)) (rwid : Option Nat)
    (descr : Option String) (st : WalletState) :
    ((addBonusBalance pid amount wr expiry mb eg rwid descr st).2.balances pid).bonus_balance
      = (st.balances pid).bonus_balance + amount := by
  simp only [addBonusBalance, createTransaction, WalletState.setBalance, if_true]
  cases expiry <;> cases mb <;> cases eg <;>
    dsimp only <;> (try split) <;> (try split) <;> rfl

/-- A bonus credit adds exactly `wagering_requirement` to the player's
`bonus_wagering_required` (accumulating, not replacing). -/
theorem addBonusBalance_wagering (pid : String) (amount wr : ℚ)
    (expiry mb : Option ℚ) (eg : Option (List String)) (rwid : Option Nat)
    (descr : Option String) (st : WalletState) :
    ((addBonusBalance pid amount wr expiry mb eg rwid descr st).2.balances
        pid).bonus_wagering_required
      = (st.balances pid).bonus_wagering_required + wr := by
  simp only [addBonusBalance, createTransaction, WalletState.setBalance, if_true]
  cases expiry <;> cases mb <;> cases eg <;>
    dsimp only <;> (try split) <;> (try split) <;> rfl

/-- C2: `issue_reward` fails when the reward id is unknown or the status is
not PENDING; and after a successful issue, a second call on the same id
fails with the not-pending error leaving the state exactly as the first call
left it, the reward is ACTIVE, and the player's balance was credited exactly
once (by the reward amount). -/
theorem c2_issue_reward_at_most_once (st : WalletState) (rid eid eid2 : Nat)
    (now now2 : ℚ) :
    (findReward rid st.rewards = none →
      issueReward rid eid now st = (.error .rewardNotFound, st))
    ∧ (∀ r, findReward rid st.rewards = some r → r.status ≠ .PENDING →
        issueReward rid eid now st = (.error .rewardNotPending, st))
    ∧ (∀ tx st2, issueReward rid eid now st = (.ok tx, st2) →
        issueReward rid eid2 now2 st2 = (.error .rewardNotPending, st2)
        ∧ ∃ r, findReward rid st.rewards = some r ∧ r.status = .PENDING
            ∧ findReward rid st2.rewards = some { r with status := .ACTIVE }
            ∧ creditField r.currency_type (st2.balances r.player_id)
                = creditField r.currency_type (st.balances r.player_id) + r.amount) := by
  refine ⟨?_, ?_, ?_⟩
  · intro hnone
    simp [issueReward, hnone]
  · intro r hr hst
    simp [issueReward, hr, hst]
  · intro tx st2 hsucc
    unfold issueReward at hsucc
    cases hfind : findReward rid st.rewards with
    | none =>
      simp only [hfind] at hsucc
      exact absurd (congrArg Prod.fst hsucc) (by simp)
    | some r =>
      simp only [hfind] at hsucc
      by_cases hpend : r.status ≠ .PENDING
      · rw [if_pos hpend] at hsucc
        exact absurd (congrArg Prod.fst hsucc) (by simp)
      · rw [if_neg hpend] at hsucc
        push_neg at hpend
        cases hcur : r.currency_type with
        | LOYALTY_POINTS =>
          simp only [hcur] at hsucc
          simp only [Prod.mk.injEq] at hsucc
          obtain ⟨-, hst2⟩ := hsucc
          have hrew : st2.rewards = setRewardActive rid st.rewards := by
            rw [← hst2, addLoyaltyPoints_rewards]
          have hfind2 : findReward rid st2.rewards
              = some { r with status := .ACTIVE } := by
            rw [hrew, findReward_setRewardActive, hfind]
            rfl
          refine ⟨?_, r, rfl, hpend, hfind2, ?_⟩
          · unfold issueReward
            simp [hfind2]
          · have hbal : st2.balances r.player_id
                = { st.balances r.player_id with
                    lp_balance := (st.balances r.player_id).lp_balance + r.amount } := by
              rw [← hst2]
              exact addLoyaltyPoints_balance r.player_id r.amount "REWARD"
                (some ("Reward from rule " ++ r.rule_id.getD "None"))
                r.lp_expiry_days eid now st
            rw [hcur, hbal]
            rfl
        | BONUS_BALANCE =>
          simp only [hcur] at hsucc
          simp only [Prod.mk.injEq] at hsucc
          obtain ⟨-, hst2⟩ := hsucc
          have hrew : st2.rewards = setRewardActive rid st.rewards := by
            rw [← hst2, addBonusBalance_rewards]
          have hfind2 : findReward rid st2.rewards
              = some { r with status := .ACTIVE } := by
            rw [hrew, findReward_setRewardActive, hfind]
            rfl
          refine ⟨?_, r, rfl, hpend, hfind2, ?_⟩
          · unfold issueReward
            simp [hfind2]
          · have hbal : (st2.balances r.player_id).bonus_balance
                = (st.balances r.player_id).bonus_balance + r.amount := by
              rw [← hst2]
              exact addBonusBalance_bonus r.player_id r.amount r.wagering_required
                r.expires_at r.max_bet r.eligible_games (some r.id)
                (some ("Bonus from rule " ++ r.rule_id.getD "None")) st
            rw [hcur]
            exact hbal
        | REWARD_POINTS =>
          simp only [hcur] at hsucc
          exact absurd (congrArg Prod.fst hsucc) (by simp)
        | TICKETS =>
          simp only [hcur] at hsucc
          exact absurd (congrArg Prod.fst hsucc) (by simp)
        | CASH =>
          simp only [hcur] at hsucc
          exact absurd (congrArg Prod.fst hsucc) (by simp)

/-- Witness for C2: issuing the concrete pending reward once succeeds; the
second call fails with the not-pending error and changes nothing. -/
theorem c2_issue_reward_at_most_once_witness :
    issueReward 1 8 0 (issueReward 1 7 0 exampleIssueState).2
      = (.error .rewardNotPending, (issueReward 1 7 0 exampleIssueState).2) := by
  obtain ⟨tx, st2, hsucc⟩ :
      ∃ tx st2, issueReward 1 7 0 exampleIssueState = (.ok tx, st2) := ⟨_, _, rfl⟩
  have h := ((c2_issue_reward_at_most_once exampleIssueState 1 7 8 0 0).2.2
    tx st2 hsucc).1
  rw [hsucc]
  exact h

/-- C7: `create_reward` records `wagering_required = amount × multiplier`
on a BONUS_BALANCE reward, and issuing it adds exactly that product to the
wallet's `bonus_wagering_required`, on top of whatever requirement was
already there. -/
theorem c7_bonus_wagering_round_trip (pid : String) (rule : RewardRule)
    (amount : ℚ) (rid : Nat) (now : ℚ) (r : RewardHistory) (st : WalletState)
    (eid : Nat) (now2 : ℚ) (tx : Transaction) (st2 : WalletState)
    (hcr : createReward pid rule amount rid now = some r)
    (hbonus : r.currency_type = .BONUS_BALANCE)
    (hfind : findReward rid st.rewards = some r)
    (hissue : issueReward rid eid now2 st = (.ok tx, st2)) :
    r.wagering_required = amount * (rule.reward_config.wagering_requirement.getD 0)
    ∧ (st2.balances r.player_id).bonus_wagering_required
        = (st.balances r.player_id).bonus_wagering_required
          + amount * (rule.reward_config.wagering_requirement.getD 0) := by
  unfold createReward at hcr
  cases hty : rewardTypeOfString (rule.reward_config.type.getD "BONUS_BALANCE") with
  | none =>
    simp only [hty] at hcr
    exact absurd hcr (by simp)
  | some rt =>
    simp only [hty] at hcr
    simp only [Option.some.injEq] at hcr
    have hwr : r.wagering_required
        = amount * (rule.reward_config.wagering_requirement.getD 0) := by
      rw [← hcr]
    have hpend : r.status = .PENDING := by rw [← hcr]
    refine ⟨hwr, ?_⟩
    unfold issueReward at hissue
    simp only [hfind] at hissue
    rw [if_neg (by rw [hpend]; simp)] at hissue
    simp only [hbonus] at hissue
    simp only [Prod.mk.injEq] at hissue
    obtain ⟨-, hst2⟩ := hissue
    rw [← hst2, addBonusBalance_wagering, hwr]

/-- Witness for C7: amount 50 with multiplier 10 increments the wallet's
wagering requirement by exactly 500. -/
theorem c7_bonus_wagering_round_trip_witness :
    exampleBonusReward.wagering_required = 50 * 10
    ∧ (((issueReward 1 2 0 exampleBonusState).2.balances "p1").bonus_wagering_required
        = ((exampleBonusState.balances "p1").bonus_wagering_required + 50 * 10)) := by
  obtain ⟨tx, st2, hsucc⟩ :
      ∃ tx st2, issueReward 1 2 0 exampleBonusState = (.ok tx, st2) := ⟨_, _, rfl⟩
  have h := c7_bonus_wagering_round_trip "p1" exampleBonusRule 50 1 0
    exampleBonusReward exampleBonusState 2 0 tx st2 rfl rfl rfl hsucc
  have hmul : (exampleBonusRule.reward_config.wagering_requirement.getD 0) = 10 := rfl
  have hpid : exampleBonusReward.player_id = "p1" := rfl
  constructor
  · rw [h.1, hmul]
  · rw [hsucc]
    have h2 := h.2
    rw [hmul, hpid] at h2
    exact h2

/-- A digit character is in the numeric alphabet. -/
theorem isNumCh_digit (m : Nat) (hm : m < 10) :
    isNumCh (Char.ofNat (48 + m)) = true := by
  interval_cases m <;> decide

/-- Every character `natDigitsAux` emits is in the numeric alphabet. -/
theorem natDigitsAux_mem (fuel : Nat) :
    ∀ (n : Nat), ∀ c ∈ natDigitsAux fuel n, isNumCh c = true := by
  induction fuel with
  | zero =>
    intro n c hc
    cases n with
    | zero => exact absurd hc (List.not_mem_nil c)
    | succ m => exact absurd hc (List.not_mem_nil c)
  | succ f ih =>
    intro n c hc
    cases n with
    | zero => exact absurd hc (List.not_mem_nil c)
    | succ m =>
      simp only [natDigitsAux] at hc
      rcases List.mem_append.mp hc with h1 | h1
      · exact ih _ c h1
      · rw [List.mem_singleton.mp h1]
        exact isNumCh_digit ((m + 1) % 10) (Nat.mod_lt _ (by norm_num))

/-- Every character of `natDigitsCh` is in the numeric alphabet. -/
theorem natDigitsCh_mem (n : Nat) : ∀ c ∈ natDigitsCh n, isNumCh c = true := by
  unfold natDigitsCh
  split
  · intro c hc
    rw [List.mem_singleton.mp hc]
    decide
  · exact natDigitsAux_mem n n

/-- Every character of `intStrCh` is in the numeric alphabet. -/
theorem intStrCh_mem (i : Int) : ∀ c ∈ intStrCh i, isNumCh c = true := by
  unfold intStrCh
  split
  · intro c hc
    rcases List.mem_cons.mp hc with h | h
    · rw [h]
      decide
    · exact natDigitsCh_mem i.natAbs c h
  · exact natDigitsCh_mem i.natAbs

/-- Every character of the numeric rendering `ratStr` is a digit, a minus
sign or a slash — in particular never a letter. -/
theorem ratStr_mem (q : ℚ) : ∀ c ∈ (ratStr q).data, isNumCh c = true := by
  unfold ratStr
  split
  · intro c hc
    exact intStrCh_mem q.num c hc
  · intro c hc
    rcases List.mem_append.mp hc with h | h
    · exact intStrCh_mem q.num c h
    · rcases List.mem_cons.mp h with h2 | h2
      · rw [h2]
        decide
      · exact natDigitsCh_mem q.den c h2

/-- A matched pattern occurrence puts every pattern character into the
scanned text. -/
theorem startsWithCh_mem (p : List Char) :
    ∀ (s : List Char), startsWithCh p s = true → ∀ c ∈ p, c ∈ s := by
  induction p with
  | nil =>
    intro s _ c hc
    exact absurd hc (List.not_mem_nil c)
  | cons p0 ps ih =>
    intro s h c hc
    cases s with
    | nil => exact absurd h (by simp [startsWithCh])
    | cons c0 cs =>
      simp only [startsWithCh, Bool.and_eq_true, decide_eq_true_eq] at h
      rcases List.mem_cons.mp hc with hh | ht
      · rw [hh, ← h.1]
        exact List.mem_cons_self _ _
      · exact List.mem_cons_of_mem _ (ih cs h.2 c ht)

/-- `str.replace` is the identity when some pattern character never occurs
in the text (so the pattern cannot match anywhere). -/
theorem replaceAllChGo_id (pat rep : List Char) (c0 : Char) (hc : c0 ∈ pat) :
    ∀ (s : List Char), c0 ∉ s → ∀ (fuel : Nat),
      replaceAllChGo pat rep fuel s = s := by
  intro s
  induction s with
  | nil =>
    intro _ fuel
    cases fuel <;> rfl
  | cons ch cs ih =>
    intro hs fuel
    cases fuel with
    | zero => rfl
    | succ f =>
      have hsw : ¬ (pat ≠ [] ∧ startsWithCh pat (ch :: cs) = true) := by
        rintro ⟨-, hsw⟩
        exact hs (startsWithCh_mem pat (ch :: cs) hsw c0 hc)
      simp only [replaceAllChGo, if_neg hsw]
      rw [ih (fun hmem => hs (List.mem_cons_of_mem _ hmem)) f]

/-- C3 (amended): `calculate_reward_amount` substitutes numeric state fields
in state-iteration order with plain textual replacement, not
longest-name-first: with `wager` iterated before `total_wager`, the formula
`total_wager * 2` becomes `total_<wager-value> * 2` (the longer name is
corrupted), for every pair of numeric values; the spec's longest-name-first
substitution instead substitutes the longer name intact. -/
theorem c3_substitution_iteration_order (a b : ℚ) :
    substState [("wager", Prim.num a), ("total_wager", Prim.num b)]
        "total_wager * 2"
      = "total_" ++ ratStr a ++ " * 2"
    ∧ substLongestFirst [("wager", Prim.num a), ("total_wager", Prim.num b)]
        "total_wager * 2"
      = ratStr b ++ " * 2" := by
  have hw1 : ('w' : Char) ∈ "wager".data := by decide
  have hw2 : ('w' : Char) ∈ "total_wager".data := by decide
  constructor
  · show strReplace (strReplace "total_wager * 2" "wager" (ratStr a))
        "total_wager" (ratStr b) = "total_" ++ ratStr a ++ " * 2"
    have h1 : strReplace "total_wager * 2" "wager" (ratStr a)
        = String.mk ("total_".data ++ ((ratStr a).data ++ " * 2".data)) := rfl
    have hno : ('w' : Char) ∉ ("total_".data ++ ((ratStr a).data ++ " * 2".data)) := by
      intro hmem
      rcases List.mem_append.mp hmem with h | h
      · exact absurd h (by decide)
      · rcases List.mem_append.mp h with h2 | h2
        · exact absurd (ratStr_mem a _ h2) (by decide)
        · exact absurd h2 (by decide)
    rw [h1]
    unfold strReplace
    rw [replaceAllChGo_id "total_wager".data (ratStr b).data 'w' hw2 _ hno _]
    rfl
  · show strReplace (strReplace "total_wager * 2" "total_wager" (ratStr b))
        "wager" (ratStr a) = ratStr b ++ " * 2"
    have h1 : strReplace "total_wager * 2" "total_wager" (ratStr b)
        = String.mk ((ratStr b).data ++ " * 2".data) := rfl
    have hno : ('w' : Char) ∉ ((ratStr b).data ++ " * 2".data) := by
      intro hmem
      rcases List.mem_append.mp hmem with h | h
      · exact absurd (ratStr_mem b _ h) (by decide)
      · exact absurd h (by decide)
    rw [h1]
    unfold strReplace
    rw [replaceAllChGo_id "wager".data (ratStr a).data 'w' hw1 _ hno _]
    rfl

/-- Counterexample for C3 as stated: with state `(wager = 5, total_wager =
100)` in that iteration order, the code substitutes into `total_wager * 2`
producing `total_5 * 2` — not the `100 * 2` that longest-name-first
substitution yields — and the corrupted expression fails evaluation, so the
computed amount is `0`. -/
theorem c3_substitution_iteration_order_counterexample :
    substState [("wager", Prim.num 5), ("total_wager", Prim.num 100)]
        "total_wager * 2" = "total_5 * 2"
    ∧ substLongestFirst [("wager", Prim.num 5), ("total_wager", Prim.num 100)]
        "total_wager * 2" = "100 * 2"
    ∧ substState [("wager", Prim.num 5), ("total_wager", Prim.num 100)]
        "total_wager * 2"
      ≠ substLongestFirst [("wager", Prim.num 5), ("total_wager", Prim.num 100)]
        "total_wager * 2"
    ∧ calcRewardAmount
        { rule_id := "r", reward_config := { formula := some "total_wager * 2" } }
        [("wager", Prim.num 5), ("total_wager", Prim.num 100)] = 0 := by
  have h5 : ratStr 5 = "5" := by
    unfold ratStr
    rw [Rat.den_ofNat, Rat.num_ofNat]
    norm_num [intStrCh, natDigitsCh, natDigitsAux]
  have h100 : ratStr 100 = "100" := by
    unfold ratStr
    rw [Rat.den_ofNat, Rat.num_ofNat]
    norm_num [intStrCh, natDigitsCh, natDigitsAux]
  have hs1 : substState [("wager", Prim.num 5), ("total_wager", Prim.num 100)]
      "total_wager * 2" = "total_5 * 2" := by
    show strReplace (strReplace "total_wager * 2" "wager" (ratStr 5))
        "total_wager" (ratStr 100) = "total_5 * 2"
    rw [h5, h100]
    decide
  have hs2 : substLongestFirst [("wager", Prim.num 5), ("total_wager", Prim.num 100)]
      "total_wager * 2" = "100 * 2" := by
    show strReplace (strReplace "total_wager * 2" "total_wager" (ratStr 100))
        "wager" (ratStr 5) = "100 * 2"
    rw [h5, h100]
    decide
  refine ⟨hs1, hs2, ?_, ?_⟩
  · rw [hs1, hs2]
    decide
  · show (match parseDecimal "total_wager * 2" with
      | some q => q
      | none =>
        match evalExpr (substState
            [("wager", Prim.num 5), ("total_wager", Prim.num 100)]
            "total_wager * 2") with
        | .ok v => v
        | .error _ => (0 : ℚ)) = (0 : ℚ)
    simp only [show parseDecimal "total_wager * 2" = none from by decide, hs1,
      show evalExpr "total_5 * 2" = Except.error (EvalErr.nameError "total_5")
        from rfl]

/-- Witness for C4: deducting 5 LP from a fresh (zero) balance raises
`InsufficientBalance` and leaves the state unchanged. -/
theorem c4_deduct_all_or_nothing_witness :
    (deductBalance "p1" .LOYALTY_POINTS 5 none WalletState.empty).1
        = .error .insufficientBalance
    ∧ (deductBalance "p1" .LOYALTY_POINTS 5 none WalletState.empty).2
        = WalletState.empty := by
  have h := c4_deduct_all_or_nothing WalletState.empty "p1" .LOYALTY_POINTS 5 0 none rfl
  have herr := h.1.mpr (by norm_num)
  exact ⟨herr, h.2 _ herr⟩

end Loyalty
